import Mathlib

/-!
Shallow embedding of `mcu_util.py` (Creality K1 MCU flasher) and proofs
about its protocol logic.

Conventions of the embedding:
* a Python `bytes` value is a `List Nat` whose elements are byte values;
* Python `(x + i) & 0xff` is written `(x + i) % 256` (the two agree on
  naturals);
* a serial read that timed out is the empty list (pyserial returns the
  bytes that arrived, possibly none);
* the environment (the device on the other end of the serial line) is a
  family of read results `rd : Nat -> List Nat` indexed by the position of
  the `ser.read` call in the program, and a family of write results
  `wr : Nat -> List Nat -> Nat` giving the count returned by the k-th
  `ser.write` of a given frame;
* Python exceptions that escape a function are `Except.error` values of
  type `PyErr`.
-/

namespace McuUtil

/-- Embedding of `crc` (mcu_util.py lines 22-26): running byte sum reduced
mod 256 at every step, then XOR with 0xff. -/
def crc (data : List Nat) : Nat :=
  (data.foldl (fun x i => (x + i) % 256) 0) ^^^ 0xff

/-- The running reduced sum computed by the fold in `crc` equals the plain
sum reduced once. -/
theorem crc_foldl (data : List Nat) :
    ∀ x : Nat, x < 256 →
      data.foldl (fun x i => (x + i) % 256) x = (x + data.sum) % 256 := by
  induction data with
  | nil => intro x hx; simp [Nat.mod_eq_of_lt hx]
  | cons a l ih =>
      intro x hx
      simp only [List.foldl_cons, List.sum_cons]
      rw [ih ((x + a) % 256) (Nat.mod_lt _ (by omega))]
      omega

/-- `crc` equals the closed form: sum of the bytes mod 256, complemented. -/
theorem crc_eq (data : List Nat) : crc data = (data.sum % 256) ^^^ 0xff := by
  unfold crc
  rw [crc_foldl data 0 (by omega)]
  simp

end McuUtil

namespace McuUtil

/-- C1: the checksum is the byte sum mod 256 XOR 0xFF, and the validation
step used throughout the program (recompute the checksum over all received
bytes except the last and compare with the last byte) reproduces the
original checksum on every frame of the shape `b ++ [crc b]`.  The Lean
definition `crc` is a total function, mirroring the Python function, which
has no failure mode. -/
theorem c1_checksum_spec (b : List Nat) :
    crc b = (b.sum % 256) ^^^ 0xff
      ∧ crc ((b ++ [crc b]).dropLast) = crc b
      ∧ (b ++ [crc b]).getLastD 0 = crc b := by
  refine ⟨crc_eq b, ?_, ?_⟩
  · rw [List.dropLast_concat]
  · rw [List.getLastD_concat]

/-- Embedding of `_handshake` (lines 52-74).  `w` is the count returned by
`ser.write(bytes([0x75]))`; `r` is what `ser.read(1)` returned (empty on
timeout; a serial exception while reading also leaves the function at its
`return result` with `result = False`, which coincides with the empty-read
outcome).  The function returns `True` only when a byte arrived and it is
0x75. -/
def handshake_stage (w : Nat) (r : List Nat) : Bool :=
  if w = 0 then false
  else if 0 < r.length then
    if r.headD 0 = 0x75 then true else false
  else false

/-- Embedding of `_get_version` (lines 81-101).  `w` is the count returned
by `ser.write(bytes([0x00, 0xff]))`; `r` is what `ser.read(26)` returned.
The Python function decodes the first 25 bytes with the latin-1 codec,
which maps byte k to the character of code point k bijectively and totally;
we keep the raw bytes, so `some bs` stands for the decoded string of `bs`. -/
def get_version_stage (w : Nat) (r : List Nat) : Option (List Nat) :=
  if w = 0 then none
  else if 0 < r.length then
    if r.length = 26 ∧ r.getLastD 0 = crc r.dropLast then some r.dropLast
    else none
  else none

/-- Embedding of `_get_sector_size` (lines 107-127). -/
def get_sector_size_stage (w : Nat) (r : List Nat) : Option Nat :=
  if w = 0 then none
  else if 0 < r.length then
    if r.length = 2 ∧ r.getLastD 0 = crc r.dropLast then some (r.headD 0)
    else none
  else none

/-- Embedding of `_app_start` (lines 133-156).  `w` is the count returned
by `ser.write(bytes([0x02, 0xfd]))`; `r` is what `ser.read(2)` returned.
`none` is Python `None` (indeterminate), `some true`/`some false` mirror
the `result = True` / `result = False` assignments. -/
def app_start_stage (w : Nat) (r : List Nat) : Option Bool :=
  if w = 0 then none
  else if 0 < r.length then
    if r.headD 0 = 0x75 ∧ r.getLastD 0 = crc r.dropLast then some true
    else some false
  else none

/-- Embedding of `get_version` (lines 304-322): `portOk` tells whether
`open_port` produced a channel; the operation reports `True` exactly when
the stage produced a version value (which it then prints as genuine). -/
def get_version_op (portOk : Bool) (w : Nat) (r : List Nat) : Bool :=
  if portOk then (get_version_stage w r).isSome else false

end McuUtil

namespace McuUtil

/-- C7: the handshake stage succeeds exactly when the single-byte read
(`ser.read(1)`, hence at most one byte) yields the byte 0x75 and the probe
byte was actually written; an empty read (timeout) or any other byte yields
failure, never success. -/
theorem c7_handshake (w : Nat) (r : List Nat) (hr : r.length ≤ 1) :
    handshake_stage w r = true ↔ (w ≠ 0 ∧ r = [0x75]) := by
  unfold handshake_stage
  match r, hr with
  | [], _ => simp
  | [b], _ =>
      by_cases hw : w = 0 <;> by_cases hb : b = 0x75 <;>
        simp [hw, hb]

/-- Witness for `c7_handshake`: at the concrete channel that echoes 0x75
the stage succeeds, and instantiating the same theorem at the echo 0x74
shows it fails there. -/
theorem c7_handshake_witness :
    handshake_stage 1 [0x75] = true ∧ handshake_stage 1 [0x74] ≠ true :=
  ⟨(c7_handshake 1 [0x75] (by decide)).mpr ⟨by decide, rfl⟩,
   fun h => by
     have := (c7_handshake 1 [0x74] (by decide)).mp h
     simp at this⟩

/-- C4 (the code, evaluated at the claimed input): for a Version Query
response of 25 zero bytes plus its matching checksum 0xFF, `_get_version`
returns the 25-NUL string as a genuine version (`some`), and the
`get_version` operation prints it and reports `True`.  The code has no
branch distinguishing the all-zero payload, contradicting the claim that a
"no usable version" placeholder is surfaced. -/
theorem c4_zero_version_accepted :
    get_version_stage 2 (List.replicate 25 0 ++ [0xff])
        = some (List.replicate 25 0)
      ∧ get_version_op true 2 (List.replicate 25 0 ++ [0xff]) = true := by
  constructor
  · decide
  · decide

/-- C5 counterexample: the claim says App-Start reports indeterminate
exactly when the checksum fails or fewer than 2 bytes arrive; but on the
2-byte response [0x75, 0x00], whose checksum byte 0x00 differs from
crc [0x75] = 0x8a, the code reports `some false` ("start failed"), not
`none` (indeterminate). -/
theorem c5_app_start_counterexample :
    app_start_stage 2 [0x75, 0x00] = some false
      ∧ List.getLastD [0x75, 0x00] 0 ≠ crc (List.dropLast [0x75, 0x00])
      ∧ app_start_stage 2 [0x75, 0x00] ≠ none := by
  refine ⟨by decide, by decide, by decide⟩

/-- C5 amended: the App-Start stage is indeterminate (`none`) exactly when
the write failed or zero bytes arrived; it reports success exactly when at
least one byte arrived, the first byte is 0x75 and the trailing checksum
validates; every other nonempty response - wrong status, wrong checksum, or
a 1-byte short read - is reported as "start failed" (`some false`), not as
indeterminate. -/
theorem c5_app_start_amended (w : Nat) (r : List Nat) :
    (app_start_stage w r = none ↔ (w = 0 ∨ r = []))
      ∧ (app_start_stage w r = some true
          ↔ (w ≠ 0 ∧ r ≠ [] ∧ r.headD 0 = 0x75 ∧ r.getLastD 0 = crc r.dropLast)) := by
  unfold app_start_stage
  by_cases hw : w = 0
  · simp [hw]
  · match r with
    | [] => simp [hw]
    | b :: bs =>
        rw [if_neg hw, if_pos (by simp : 0 < (b :: bs).length)]
        by_cases hc :
            (b :: bs).headD 0 = 0x75 ∧ (b :: bs).getLastD 0 = crc (b :: bs).dropLast
        · rw [if_pos hc]
          refine ⟨by simp [hw], ?_⟩
          constructor
          · intro _
            exact ⟨hw, by simp, hc.1, hc.2⟩
          · intro _
            rfl
        · rw [if_neg hc]
          refine ⟨by simp [hw], ?_⟩
          constructor
          · intro h
            exact absurd h (by simp)
          · rintro ⟨-, -, h1, h2⟩
            exact absurd ⟨h1, h2⟩ hc

/-- Witness for `c5_app_start_amended` at the valid success response. -/
theorem c5_app_start_amended_witness :
    app_start_stage 2 [0x75, 0x8a] = some true :=
  (c5_app_start_amended 2 [0x75, 0x8a]).2.mpr
    ⟨by decide, by decide, by decide, by decide⟩

end McuUtil

namespace McuUtil

/-- Python exceptions that can escape `_flash_fw`: comparing `None > 3`
raises `TypeError`; reaching `return x` with `x` never assigned raises
`UnboundLocalError`; `size // buffer_size` with `buffer_size = 0` raises
`ZeroDivisionError`. -/
inductive PyErr : Type where
  | typeError : PyErr
  | unboundLocal : PyErr
  | zeroDiv : PyErr
deriving DecidableEq, Repr

/-- Embedding of the inner `fw_status_check` of `_flash_fw` (lines
170-186).  Python falls off the end for an unrecognised status byte,
returning `None`, which is `none` here. -/
def fw_status_check (r : List Nat) : Option Nat :=
  if r.length = 0 then some 2
  else if r.headD 0 = 0x75 then some 4
  else if r.headD 0 = 0x1f then some 3
  else if r.headD 0 = 0x21 then some 0
  else if r.headD 0 = 0x20 then some 1
  else none

/-- The frame transmitted for full chunk number `i`: the `bs` bytes of the
image starting at offset `bs * i` followed by their checksum
(`buffer_send[:-1] = f.read(buffer_size); buffer_send[-1] = crc(...)`). -/
def chunk_frame (fw : List Nat) (bs i : Nat) : List Nat :=
  ((fw.drop (bs * i)).take bs) ++ [crc ((fw.drop (bs * i)).take bs)]

/-- The frame transmitted for the final short chunk: the remaining
`size % bs` bytes of the image followed by their checksum
(`buffer_send[:size_remainder]` plus `crc`). -/
def rem_frame (fw : List Nat) (bs : Nat) : List Nat :=
  ((fw.drop (bs * (fw.length / bs))).take (fw.length % bs))
    ++ [crc ((fw.drop (bs * (fw.length / bs))).take (fw.length % bs))]

/-- `size.to_bytes(4, "little")` for sizes below 2^32. -/
def size_bytes (n : Nat) : List Nat :=
  [n % 256, n / 256 % 256, n / 65536 % 256, n / 16777216 % 256]

/-- The 5-byte size-negotiation frame: little-endian size plus checksum. -/
def size_frame (n : Nat) : List Nat :=
  size_bytes n ++ [crc (size_bytes n)]

/-- Embedding of the full-chunk `for` loop of `_flash_fw` (lines 224-240).
Arguments after the environment: the number of loop iterations left, the
index `i` of the current chunk, and the current binding of the Python local
`x` (`none` = not yet assigned).  Result: `(early, x, frames)` where
`early = some e` means the loop exited the whole function with `e`
(a `return` or an escaping exception), `x` is the final binding of the
local, and `frames` are the chunk frames passed to `ser.write` during the
loop, in order. -/
def flash_chunks (rd : Nat → List Nat) (wr : Nat → List Nat → Nat)
    (fw : List Nat) (bs : Nat) :
    Nat → Nat → Option Nat →
      Option (Except PyErr (Option Nat)) × Option Nat × List (List Nat)
  | 0, _, x => (none, x, [])
  | n + 1, i, x =>
      let frame := chunk_frame fw bs i
      if wr (2 + i) frame = 0 then
        (some (Except.ok (some 2)), x, [frame])
      else
        let r := rd (2 + i)
        if r.length = 2 ∧ r.getLastD 0 = crc r.dropLast then
          match fw_status_check r with
          | none => (some (Except.error PyErr.typeError), x, [frame])
          | some v =>
              if v > 3 then
                match flash_chunks rd wr fw bs n (i + 1) (some v) with
                | (e, x2, fs) => (e, x2, frame :: fs)
              else (some (Except.ok (some 0)), some v, [frame])
        else (some (Except.ok (some 0)), x, [frame])

/-- Embedding of `_flash_fw` (lines 168-272).  `rd k` is the result of the
k-th `ser.read` call on an execution path (0 = update-request response,
1 = size response, `2 + i` = response to chunk `i`); `wr k frame` is the
count returned by the k-th `ser.write`.  The first component is the value
the Python function produces (`Except.error` = an escaping exception,
`Except.ok (some n)` = `return n`, `Except.ok none` = `return None`); the
second component is the list of frames passed to `ser.write`, in order. -/
def flash_fw (rd : Nat → List Nat) (wr : Nat → List Nat → Nat)
    (ss : Nat) (fw : List Nat) :
    Except PyErr (Option Nat) × List (List Nat) :=
  let bs := ss * 1024
  let size := fw.length
  let req : List Nat := [0x01, 0xfe]
  if wr 0 req = 0 then (Except.ok (some 0), [req])
  else
    let r0 := rd 0
    if 0 < r0.length then
      if r0.headD 0 = 0x75 ∧ r0.getLastD 0 = crc r0.dropLast then
        let bsize := size_frame size
        if wr 1 bsize = 5 then
          let r1 := rd 1
          if 0 < r1.length then
            if r1.length = 2 ∧ r1.getLastD 0 = crc r1.dropLast then
              if r1.headD 0 = 0x75 then
                if bs = 0 then (Except.error PyErr.zeroDiv, [req, bsize])
                else
                  match flash_chunks rd wr fw bs (size / bs) 0 none with
                  | (some early, _, fs) => (early, req :: bsize :: fs)
                  | (none, x, fs) =>
                      if 0 < size % bs then
                        let pfr := rem_frame fw bs
                        if wr (2 + size / bs) pfr = 0 then
                          (Except.ok (some 2), req :: bsize :: (fs ++ [pfr]))
                        else
                          let rp := rd (2 + size / bs)
                          if rp.length = 2 ∧ rp.getLastD 0 = crc rp.dropLast then
                            (Except.ok (fw_status_check rp),
                             req :: bsize :: (fs ++ [pfr]))
                          else
                            (Except.ok (some 0), req :: bsize :: (fs ++ [pfr]))
                      else
                        match x with
                        | none =>
                            (Except.error PyErr.unboundLocal, req :: bsize :: fs)
                        | some v => (Except.ok (some v), req :: bsize :: fs)
              else (Except.ok (some 0), [req, bsize])
            else (Except.ok (some 0), [req, bsize])
          else (Except.ok (some 0), [req, bsize])
        else (Except.ok (some 0), [req, bsize])
      else (Except.ok (some 2), [req])
    else (Except.ok (some 0), [req])

/-- The device's accepting 2-byte response frame. -/
theorem crc_probe : crc [0x75] = 0x8a := by decide

/-- A list of the shape `range (n+1)` mapped through an offset function,
peeled at the front. -/
theorem range_map_shift {α : Type} (f : Nat → α) (n i : Nat) :
    (List.range (n + 1)).map (fun k => f (i + k))
      = f i :: (List.range n).map (fun k => f (i + 1 + k)) := by
  rw [List.range_succ_eq_map, List.map_cons, List.map_map]
  refine congrArg₂ List.cons (by rw [Nat.add_zero]) ?_
  apply List.map_congr_left
  intro a _
  simp only [Function.comp_apply]
  congr 1
  omega

/-- A chunk frame is never empty, so `ser.write` returning the frame
length never returns 0. -/
theorem chunk_frame_ne_nil (fw : List Nat) (bs i : Nat) :
    (chunk_frame fw bs i).length ≠ 0 := by
  simp [chunk_frame]

/-- If the device answers every full-chunk write with the accepting frame,
the chunk loop runs to completion: no early exit, the local `x` ends as the
code 4 of the last accepted chunk (or stays unassigned when there are no
iterations), and exactly the `n` chunk frames starting at index `i` are
written, in image order. -/
theorem flash_chunks_accept (rd : Nat → List Nat) (wr : Nat → List Nat → Nat)
    (fw : List Nat) (bs : Nat)
    (hwr : ∀ j fr, wr j fr = fr.length) :
    ∀ n i x, (∀ j, j < n → rd (2 + (i + j)) = [0x75, 0x8a]) →
      flash_chunks rd wr fw bs n i x =
        (none, if n = 0 then x else some 4,
         (List.range n).map (fun k => chunk_frame fw bs (i + k))) := by
  intro n
  induction n with
  | zero => intro i x _; simp [flash_chunks]
  | succ n ih =>
      intro i x hrd
      have h0 : rd (2 + i) = [0x75, 0x8a] := by
        have := hrd 0 (Nat.succ_pos n)
        simpa using this
      have hrd' : ∀ j, j < n → rd (2 + (i + 1 + j)) = [0x75, 0x8a] := by
        intro j hj
        have := hrd (j + 1) (by omega)
        have e : i + (j + 1) = i + 1 + j := by omega
        rwa [e] at this
      rw [flash_chunks]
      rw [if_neg (by rw [hwr]; exact chunk_frame_ne_nil fw bs i)]
      rw [h0]
      rw [if_pos (by constructor <;> decide)]
      have hsc : fw_status_check [0x75, 0x8a] = some 4 := by decide
      rw [hsc]
      dsimp only
      rw [if_pos (by decide : (4 : Nat) > 3)]
      rw [ih (i + 1) (some 4) hrd']
      dsimp only
      rw [range_map_shift (chunk_frame fw bs) n i]
      by_cases hn : n = 0 <;> simp [hn]

/-- If chunks before index `i + k` are all accepted and the response to
chunk `i + k` is checksum-valid with a status classified as `some v` with
`v ≤ 3`, the loop returns 0 from the whole function right there, having
written exactly the chunk frames up to and including chunk `i + k`. -/
theorem flash_chunks_abort (rd : Nat → List Nat) (wr : Nat → List Nat → Nat)
    (fw : List Nat) (bs : Nat)
    (hwr : ∀ j fr, wr j fr = fr.length) :
    ∀ k n i x v, k < n →
      (∀ j, j < k → rd (2 + (i + j)) = [0x75, 0x8a]) →
      (rd (2 + (i + k))).length = 2 →
      (rd (2 + (i + k))).getLastD 0 = crc (rd (2 + (i + k))).dropLast →
      fw_status_check (rd (2 + (i + k))) = some v →
      v ≤ 3 →
      flash_chunks rd wr fw bs n i x =
        (some (Except.ok (some 0)), some v,
         (List.range (k + 1)).map (fun j => chunk_frame fw bs (i + j))) := by
  intro k
  induction k with
  | zero =>
      intro n i x v hk _ hl hcs hv hvle
      obtain ⟨m, rfl⟩ : ∃ m, n = m + 1 := ⟨n - 1, by omega⟩
      rw [flash_chunks]
      rw [if_neg (by rw [hwr]; exact chunk_frame_ne_nil fw bs i)]
      rw [if_pos ⟨by simpa using hl, by simpa using hcs⟩]
      rw [show fw_status_check (rd (2 + i)) = some v by simpa using hv]
      dsimp only
      rw [if_neg (by omega : ¬ v > 3)]
      simp [List.range_succ]
  | succ k ih =>
      intro n i x v hk hpre hl hcs hv hvle
      obtain ⟨m, rfl⟩ : ∃ m, n = m + 1 := ⟨n - 1, by omega⟩
      have h0 : rd (2 + i) = [0x75, 0x8a] := by
        have := hpre 0 (Nat.succ_pos k)
        simpa using this
      have eshift : i + (k + 1) = i + 1 + k := by omega
      have hpre' : ∀ j, j < k → rd (2 + (i + 1 + j)) = [0x75, 0x8a] := by
        intro j hj
        have := hpre (j + 1) (by omega)
        have e : i + (j + 1) = i + 1 + j := by omega
        rwa [e] at this
      rw [flash_chunks]
      rw [if_neg (by rw [hwr]; exact chunk_frame_ne_nil fw bs i)]
      rw [h0]
      rw [if_pos (by constructor <;> decide)]
      have hsc : fw_status_check [0x75, 0x8a] = some 4 := by decide
      rw [hsc]
      dsimp only
      rw [if_pos (by decide : (4 : Nat) > 3)]
      rw [ih m (i + 1) (some 4) v (by omega) hpre'
            (by rwa [eshift] at hl) (by rwa [eshift] at hcs)
            (by rwa [eshift] at hv) hvle]
      dsimp only
      rw [range_map_shift (chunk_frame fw bs) (k + 1) i]

/-- If chunks before index `i + k` are all accepted and the response to
chunk `i + k` is checksum-valid but its status byte is not classified
(`fw_status_check` yields `none`), the Python comparison `x > 3` compares
`None` with an int and the loop exits with a `TypeError`, having written
exactly the chunk frames up to and including chunk `i + k`. -/
theorem flash_chunks_type_error (rd : Nat → List Nat) (wr : Nat → List Nat → Nat)
    (fw : List Nat) (bs : Nat)
    (hwr : ∀ j fr, wr j fr = fr.length) :
    ∀ k n i x, k < n →
      (∀ j, j < k → rd (2 + (i + j)) = [0x75, 0x8a]) →
      (rd (2 + (i + k))).length = 2 →
      (rd (2 + (i + k))).getLastD 0 = crc (rd (2 + (i + k))).dropLast →
      fw_status_check (rd (2 + (i + k))) = none →
      ∃ x2, flash_chunks rd wr fw bs n i x =
        (some (Except.error PyErr.typeError), x2,
         (List.range (k + 1)).map (fun j => chunk_frame fw bs (i + j))) := by
  intro k
  induction k with
  | zero =>
      intro n i x hk _ hl hcs hv
      obtain ⟨m, rfl⟩ : ∃ m, n = m + 1 := ⟨n - 1, by omega⟩
      refine ⟨x, ?_⟩
      rw [flash_chunks]
      rw [if_neg (by rw [hwr]; exact chunk_frame_ne_nil fw bs i)]
      rw [if_pos ⟨by simpa using hl, by simpa using hcs⟩]
      rw [show fw_status_check (rd (2 + i)) = none by simpa using hv]
      dsimp only
      simp [List.range_succ]
  | succ k ih =>
      intro n i x hk hpre hl hcs hv
      obtain ⟨m, rfl⟩ : ∃ m, n = m + 1 := ⟨n - 1, by omega⟩
      have h0 : rd (2 + i) = [0x75, 0x8a] := by
        have := hpre 0 (Nat.succ_pos k)
        simpa using this
      have eshift : i + (k + 1) = i + 1 + k := by omega
      have hpre' : ∀ j, j < k → rd (2 + (i + 1 + j)) = [0x75, 0x8a] := by
        intro j hj
        have := hpre (j + 1) (by omega)
        have e : i + (j + 1) = i + 1 + j := by omega
        rwa [e] at this
      obtain ⟨x2, hx2⟩ := ih m (i + 1) (some 4) (by omega) hpre'
        (by rwa [eshift] at hl) (by rwa [eshift] at hcs) (by rwa [eshift] at hv)
      refine ⟨x2, ?_⟩
      rw [flash_chunks]
      rw [if_neg (by rw [hwr]; exact chunk_frame_ne_nil fw bs i)]
      rw [h0]
      rw [if_pos (by constructor <;> decide)]
      have hsc : fw_status_check [0x75, 0x8a] = some 4 := by decide
      rw [hsc]
      dsimp only
      rw [if_pos (by decide : (4 : Nat) > 3)]
      rw [hx2]
      dsimp only
      rw [range_map_shift (chunk_frame fw bs) (k + 1) i]

/-- When the probe and size-negotiation exchanges succeed (writes report
their full length, the device acknowledges both frames with
`[0x75, crc [0x75]]`) and the sector size is positive, `_flash_fw` reduces
to the chunk phase: the update-request and size frames are written first
and the rest is determined by the chunk loop, the remainder branch and the
local `x`, exactly as in the source. -/
theorem flash_fw_unfold (rd : Nat → List Nat) (wr : Nat → List Nat → Nat)
    (ss : Nat) (fw : List Nat)
    (hss : 0 < ss)
    (hwr : ∀ j fr, wr j fr = fr.length)
    (hr0 : rd 0 = [0x75, 0x8a])
    (hr1 : rd 1 = [0x75, 0x8a]) :
    flash_fw rd wr ss fw =
      (match flash_chunks rd wr fw (ss * 1024) (fw.length / (ss * 1024)) 0 none with
       | (some early, _, fs) =>
           (early, [0x01, 0xfe] :: size_frame fw.length :: fs)
       | (none, x, fs) =>
           if 0 < fw.length % (ss * 1024) then
             if (rd (2 + fw.length / (ss * 1024))).length = 2
                 ∧ (rd (2 + fw.length / (ss * 1024))).getLastD 0
                     = crc (rd (2 + fw.length / (ss * 1024))).dropLast then
               (Except.ok (fw_status_check (rd (2 + fw.length / (ss * 1024)))),
                [0x01, 0xfe] :: size_frame fw.length
                  :: (fs ++ [rem_frame fw (ss * 1024)]))
             else
               (Except.ok (some 0),
                [0x01, 0xfe] :: size_frame fw.length
                  :: (fs ++ [rem_frame fw (ss * 1024)]))
           else
             match x with
             | none => (Except.error PyErr.unboundLocal,
                        [0x01, 0xfe] :: size_frame fw.length :: fs)
             | some v => (Except.ok (some v),
                          [0x01, 0xfe] :: size_frame fw.length :: fs)) := by
  rw [flash_fw]
  rw [if_neg (by rw [hwr]; decide)]
  rw [hr0]
  rw [if_pos (by decide : 0 < ([0x75, 0x8a] : List Nat).length)]
  rw [if_pos (by constructor <;> decide)]
  dsimp only
  rw [show wr 1 (size_frame fw.length) = 5 by
        rw [hwr]; simp [size_frame, size_bytes]]
  rw [if_pos rfl]
  rw [hr1]
  rw [if_pos (by decide : 0 < ([0x75, 0x8a] : List Nat).length)]
  rw [if_pos (by constructor <;> decide)]
  rw [if_pos (by decide : ([0x75, 0x8a] : List Nat).headD 0 = 0x75)]
  rw [if_neg (by positivity : ¬ ss * 1024 = 0)]
  rcases hfc : flash_chunks rd wr fw (ss * 1024) (fw.length / (ss * 1024)) 0 none
    with ⟨e, x, fs⟩
  match e with
  | some early => rfl
  | none =>
      dsimp only
      by_cases hrem : 0 < fw.length % (ss * 1024)
      · rw [if_pos hrem, if_pos hrem]
        rw [if_neg (by rw [hwr]; simp [rem_frame])]
      · rw [if_neg hrem, if_neg hrem]

/-- The data part of a full-chunk frame. -/
theorem chunk_frame_dropLast (fw : List Nat) (bs k : Nat) :
    (chunk_frame fw bs k).dropLast = (fw.drop (bs * k)).take bs := by
  unfold chunk_frame
  exact List.dropLast_concat

/-- The data part of the final short frame. -/
theorem rem_frame_dropLast (fw : List Nat) (bs : Nat) :
    (rem_frame fw bs).dropLast
      = (fw.drop (bs * (fw.length / bs))).take (fw.length % bs) := by
  unfold rem_frame
  exact List.dropLast_concat

/-- Every full chunk carries exactly `bs` data bytes. -/
theorem chunk_data_length (fw : List Nat) (bs k : Nat)
    (hk : k < fw.length / bs) :
    ((fw.drop (bs * k)).take bs).length = bs := by
  have h1 : bs * (k + 1) ≤ fw.length := by
    calc bs * (k + 1) ≤ bs * (fw.length / bs) := Nat.mul_le_mul (Nat.le_refl bs) hk
      _ ≤ fw.length := by
          rw [Nat.mul_comm]
          exact Nat.div_mul_le_self _ _
  rw [Nat.mul_succ] at h1
  simp only [List.length_take, List.length_drop]
  omega

/-- Concatenating the first `n` chunks of the image recovers its first
`bs * n` bytes. -/
theorem chunks_flatten (fw : List Nat) (bs : Nat) :
    ∀ n, ((List.range n).map (fun k => (fw.drop (bs * k)).take bs)).flatten
        = fw.take (bs * n) := by
  intro n
  induction n with
  | zero => simp
  | succ n ih =>
      rw [List.range_succ, List.map_append, List.flatten_append, ih]
      simp only [List.map_cons, List.map_nil, List.flatten_cons, List.flatten_nil,
        List.append_nil]
      rw [Nat.mul_succ, List.take_add]

/-- C2: with a positive sector size, successful writes and an accepting
device, the transfer engine writes (after the update-request and size
frames) exactly `L / (S*1024)` full chunk frames of `S*1024` data bytes
each, one final short frame exactly when `L % (S*1024)` is nonzero whose
data part has `L % (S*1024)` bytes, and the data parts of the chunk frames
concatenate, in order, to the image, so their total data length is `L`. -/
theorem c2_chunking (rd : Nat → List Nat) (wr : Nat → List Nat → Nat)
    (ss : Nat) (fw : List Nat)
    (hss : 0 < ss)
    (hwr : ∀ j fr, wr j fr = fr.length)
    (hrd : ∀ j, j < 2 + fw.length / (ss * 1024) → rd j = [0x75, crc [0x75]]) :
    ((flash_fw rd wr ss fw).2.drop 2).length
        = fw.length / (ss * 1024)
          + (if fw.length % (ss * 1024) = 0 then 0 else 1)
      ∧ (∀ fr ∈ ((flash_fw rd wr ss fw).2.drop 2).take (fw.length / (ss * 1024)),
          fr.dropLast.length = ss * 1024)
      ∧ (fw.length % (ss * 1024) ≠ 0 →
          (((flash_fw rd wr ss fw).2.drop 2).getLastD []).dropLast.length
            = fw.length % (ss * 1024))
      ∧ (((flash_fw rd wr ss fw).2.drop 2).map (fun fr => fr.dropLast)).flatten
          = fw
      ∧ (((flash_fw rd wr ss fw).2.drop 2).map (fun fr => fr.dropLast.length)).sum
          = fw.length := by
  have hprobe : crc [0x75] = 0x8a := by decide
  have hr0 : rd 0 = [0x75, 0x8a] := by
    rw [hrd 0 (Nat.lt_of_lt_of_le (by norm_num) (Nat.le_add_right 2 _)), hprobe]
  have hr1 : rd 1 = [0x75, 0x8a] := by
    rw [hrd 1 (Nat.lt_of_lt_of_le (by norm_num) (Nat.le_add_right 2 _)), hprobe]
  have hrp : ∀ j, j < fw.length / (ss * 1024) →
      rd (2 + (0 + j)) = [0x75, 0x8a] := by
    intro j hj
    rw [Nat.zero_add, hrd (2 + j) (by omega), hprobe]
  have hloop := flash_chunks_accept rd wr fw (ss * 1024) hwr
    (fw.length / (ss * 1024)) 0 none hrp
  have hdm := Nat.div_add_mod fw.length (ss * 1024)
  have hframes : (flash_fw rd wr ss fw).2
      = [0x01, 0xfe] :: size_frame fw.length
          :: ((List.range (fw.length / (ss * 1024))).map
                (fun k => chunk_frame fw (ss * 1024) k)
              ++ (if fw.length % (ss * 1024) = 0 then []
                  else [rem_frame fw (ss * 1024)])) := by
    rw [flash_fw_unfold rd wr ss fw hss hwr hr0 hr1, hloop]
    dsimp only
    by_cases hrem : 0 < fw.length % (ss * 1024)
    · rw [if_pos hrem]
      rw [if_neg (by omega : ¬ fw.length % (ss * 1024) = 0)]
      by_cases hv : (rd (2 + fw.length / (ss * 1024))).length = 2
          ∧ (rd (2 + fw.length / (ss * 1024))).getLastD 0
              = crc (rd (2 + fw.length / (ss * 1024))).dropLast
      · rw [if_pos hv]
        simp
      · rw [if_neg hv]
        simp
    · rw [if_neg hrem]
      rw [if_pos (by omega : fw.length % (ss * 1024) = 0)]
      by_cases hn : fw.length / (ss * 1024) = 0
      · rw [if_pos hn]
        dsimp only
        simp [hn]
      · rw [if_neg hn]
        dsimp only
        simp
  rw [hframes]
  simp only [List.drop_succ_cons, List.drop_zero]
  by_cases hrem : fw.length % (ss * 1024) = 0
  · rw [if_pos hrem]
    simp only [List.append_nil]
    refine ⟨by simp [hrem], ?_, ?_, ?_, ?_⟩
    · intro fr hfr
      rw [List.take_of_length_le (by simp)] at hfr
      obtain ⟨k, hk, rfl⟩ := List.mem_map.mp hfr
      rw [chunk_frame_dropLast]
      exact chunk_data_length fw (ss * 1024) k (List.mem_range.mp hk)
    · intro h
      exact absurd hrem h
    · rw [List.map_map]
      have : (fun fr => List.dropLast fr) ∘ (fun k => chunk_frame fw (ss * 1024) k)
          = fun k => (fw.drop (ss * 1024 * k)).take (ss * 1024) := by
        funext k
        simp [Function.comp, chunk_frame_dropLast]
      rw [this, chunks_flatten]
      rw [show ss * 1024 * (fw.length / (ss * 1024)) = fw.length by omega]
      exact List.take_length fw
    · rw [List.map_map]
      have : (fun fr => fr.dropLast.length) ∘ (fun k => chunk_frame fw (ss * 1024) k)
          = fun k => ((fw.drop (ss * 1024 * k)).take (ss * 1024)).length := by
        funext k
        simp [Function.comp, chunk_frame_dropLast]
      rw [this]
      have hsum : ∀ m, m ≤ fw.length / (ss * 1024) →
          ((List.range m).map
              (fun k => ((fw.drop (ss * 1024 * k)).take (ss * 1024)).length)).sum
            = ss * 1024 * m := by
        intro m
        induction m with
        | zero => intro _; simp
        | succ m ih =>
            intro hm
            rw [List.range_succ, List.map_append, List.sum_append]
            rw [ih (by omega)]
            simp only [List.map_cons, List.map_nil, List.sum_cons, List.sum_nil]
            rw [chunk_data_length fw (ss * 1024) m (by omega)]
            ring
      rw [hsum (fw.length / (ss * 1024)) (Nat.le_refl _)]
      omega
  · rw [if_neg hrem]
    have hfslen : ((List.range (fw.length / (ss * 1024))).map
        (fun k => chunk_frame fw (ss * 1024) k)).length
          = fw.length / (ss * 1024) := by simp
    refine ⟨by simp [hrem], ?_, ?_, ?_, ?_⟩
    · intro fr hfr
      rw [List.take_left' hfslen] at hfr
      obtain ⟨k, hk, rfl⟩ := List.mem_map.mp hfr
      rw [chunk_frame_dropLast]
      exact chunk_data_length fw (ss * 1024) k (List.mem_range.mp hk)
    · intro _
      rw [List.getLastD_concat, rem_frame_dropLast]
      simp only [List.length_take, List.length_drop]
      omega
    · rw [List.map_append, List.flatten_append, List.map_map]
      have : (fun fr => List.dropLast fr) ∘ (fun k => chunk_frame fw (ss * 1024) k)
          = fun k => (fw.drop (ss * 1024 * k)).take (ss * 1024) := by
        funext k
        simp [Function.comp, chunk_frame_dropLast]
      rw [this, chunks_flatten]
      simp only [List.map_cons, List.map_nil, List.flatten_cons, List.flatten_nil,
        List.append_nil, rem_frame_dropLast]
      have hdl : (fw.drop (ss * 1024 * (fw.length / (ss * 1024)))).length
          = fw.length % (ss * 1024) := by
        simp only [List.length_drop]
        omega
      rw [show fw.length % (ss * 1024)
            = (fw.drop (ss * 1024 * (fw.length / (ss * 1024)))).length
          from hdl.symm, List.take_length]
      exact List.take_append_drop _ fw
    · rw [List.map_append, List.sum_append, List.map_map]
      have : (fun fr => fr.dropLast.length) ∘ (fun k => chunk_frame fw (ss * 1024) k)
          = fun k => ((fw.drop (ss * 1024 * k)).take (ss * 1024)).length := by
        funext k
        simp [Function.comp, chunk_frame_dropLast]
      rw [this]
      have hsum : ∀ m, m ≤ fw.length / (ss * 1024) →
          ((List.range m).map
              (fun k => ((fw.drop (ss * 1024 * k)).take (ss * 1024)).length)).sum
            = ss * 1024 * m := by
        intro m
        induction m with
        | zero => intro _; simp
        | succ m ih =>
            intro hm
            rw [List.range_succ, List.map_append, List.sum_append]
            rw [ih (by omega)]
            simp only [List.map_cons, List.map_nil, List.sum_cons, List.sum_nil]
            rw [chunk_data_length fw (ss * 1024) m (by omega)]
            ring
      rw [hsum (fw.length / (ss * 1024)) (Nat.le_refl _)]
      simp only [List.map_cons, List.map_nil, List.sum_cons, List.sum_nil,
        rem_frame_dropLast]
      simp only [List.length_take, List.length_drop]
      omega

/-- Witness for `c2_chunking`: a 2500-byte image with sector size 1 and an
always-accepting device yields 2 full frames, one short frame, and data
that reassembles the image. -/
theorem c2_chunking_witness :
    ((flash_fw (fun _ => [0x75, crc [0x75]]) (fun _ fr => fr.length)
        1 (List.replicate 2500 7)).2.drop 2).length
        = (List.replicate 2500 7 : List Nat).length / (1 * 1024)
          + (if (List.replicate 2500 7 : List Nat).length % (1 * 1024) = 0
             then 0 else 1)
      ∧ (((flash_fw (fun _ => [0x75, crc [0x75]]) (fun _ fr => fr.length)
            1 (List.replicate 2500 7)).2.drop 2).map
              (fun fr => fr.dropLast)).flatten
          = List.replicate 2500 7 := by
  have h := c2_chunking (fun _ => [0x75, crc [0x75]]) (fun _ fr => fr.length)
    1 (List.replicate 2500 7) (by decide) (fun _ _ => rfl) (fun _ _ => rfl)
  exact ⟨h.1, h.2.2.2.1⟩

/-- A write family that reports every byte as written. -/
def wrOK : Nat → List Nat → Nat := fun _ fr => fr.length

/-- Dropping the two header frames from the transmit log. -/
theorem drop_two_cons {α : Type} (a b : α) (l : List α) :
    (a :: b :: l).drop 2 = l := rfl

/-- A device that acknowledges the header frames and answers chunk 0 with
the checksum-valid status 0x1f (bad CRC seen by device). -/
def rdBadCrc : Nat → List Nat := fun i =>
  if i = 2 then [0x1f, 0xe0] else [0x75, 0x8a]

/-- A device that acknowledges the header frames and answers chunk 0 with
the checksum-valid status 0x20 (transfer complete). -/
def rdDone : Nat → List Nat := fun i =>
  if i = 2 then [0x20, 0xdf] else [0x75, 0x8a]

/-- C6 counterexample: a 2048-byte image (an exact positive multiple of the
1024-byte chunk size) whose first chunk is answered with the checksum-valid
status 0x1f.  The engine returns 0, while the status classifier value of
the last frame actually sent (chunk 0, answered 0x1f) is 3 - so the final
outcome is not the status of the last frame sent, and only one of the two
full chunks is ever transmitted. -/
theorem c6_counterexample :
    (List.replicate 2048 3 : List Nat).length % (1 * 1024) = 0
      ∧ (flash_fw rdBadCrc wrOK 1 (List.replicate 2048 3)).1 = Except.ok (some 0)
      ∧ fw_status_check (rdBadCrc 2) = some 3
      ∧ ((flash_fw rdBadCrc wrOK 1 (List.replicate 2048 3)).2.drop 2).length = 1
      ∧ (Except.ok (some 0) : Except PyErr (Option Nat)) ≠ Except.ok (some 3) := by
  have hlen : (List.replicate 2048 3 : List Nat).length = 2048 := by
    rw [List.length_replicate]
  have hn : (List.replicate 2048 3 : List Nat).length / (1 * 1024) = 2 := by
    rw [hlen]
  have habort := flash_chunks_abort rdBadCrc wrOK (List.replicate 2048 3)
    (1 * 1024) (fun _ _ => rfl) 0
    ((List.replicate 2048 3 : List Nat).length / (1 * 1024)) 0 none 3
    (by rw [hn]; norm_num) (fun j hj => absurd hj (by omega))
    (by decide) (by decide) (by decide) (by decide)
  have hun := flash_fw_unfold rdBadCrc wrOK 1 (List.replicate 2048 3)
    (by norm_num) (fun _ _ => rfl) rfl rfl
  rw [habort] at hun
  refine ⟨by rw [hlen], ?_, by decide, ?_, ?_⟩
  · rw [hun]
  · rw [hun, drop_two_cons, List.length_map, List.length_range]
  · intro h
    injection h with h
    injection h with h
    exact absurd h (by decide)

/-- C3 counterexample: a 1024-byte image forming one full chunk, answered
with the checksum-valid status 0x20 ("transfer complete").  Inside the
chunk loop the code classifies 0x20 as 1, fails the `x > 3` test, and
returns 0 - the result every caller treats as failure - rather than the
terminal-success result 1 produced when 0x20 answers the final short
chunk.  So mid-loop 0x20 is not terminal success, refuting the claim. -/
theorem c3_counterexample :
    (flash_fw rdDone wrOK 1 (List.replicate 1024 0)).1 = Except.ok (some 0)
      ∧ fw_status_check (rdDone 2) = some 1
      ∧ (Except.ok (some 0) : Except PyErr (Option Nat)) ≠ Except.ok (some 1) := by
  have hlen : (List.replicate 1024 0 : List Nat).length = 1024 := by
    rw [List.length_replicate]
  have hn : (List.replicate 1024 0 : List Nat).length / (1 * 1024) = 1 := by
    rw [hlen]
  have habort := flash_chunks_abort rdDone wrOK (List.replicate 1024 0)
    (1 * 1024) (fun _ _ => rfl) 0
    ((List.replicate 1024 0 : List Nat).length / (1 * 1024)) 0 none 1
    (by rw [hn]; norm_num) (fun j hj => absurd hj (by omega))
    (by decide) (by decide) (by decide) (by decide)
  have hun := flash_fw_unfold rdDone wrOK 1 (List.replicate 1024 0)
    (by norm_num) (fun _ _ => rfl) rfl rfl
  rw [habort] at hun
  refine ⟨by rw [hun], by decide, ?_⟩
  intro h
  injection h with h
  injection h with h
  exact absurd h (by decide)

/-- C3 amended: in the chunk loop a checksum-valid response with status
0x75 means the chunk is accepted and the loop continues, while each of the
statuses 0x1f (bad CRC seen by device), 0x21 (device write error) and 0x20
(device reports completion) aborts the transfer immediately with the
failure result 0: chunks 0..k-1 are accepted, chunk k receives the abort
status, exactly k+1 chunk frames are transmitted and no chunk after k is
sent.  0x20 produces terminal success only as the answer to the final
short chunk. -/
theorem c3_status_amended (rd : Nat → List Nat) (wr : Nat → List Nat → Nat)
    (ss : Nat) (fw : List Nat) (k s : Nat)
    (hss : 0 < ss)
    (hwr : ∀ j fr, wr j fr = fr.length)
    (hr0 : rd 0 = [0x75, crc [0x75]])
    (hr1 : rd 1 = [0x75, crc [0x75]])
    (hk : k < fw.length / (ss * 1024))
    (hpre : ∀ j, j < k → rd (2 + j) = [0x75, crc [0x75]])
    (hresp : rd (2 + k) = [s, crc [s]])
    (hs : s = 0x1f ∨ s = 0x21 ∨ s = 0x20) :
    (flash_fw rd wr ss fw).1 = Except.ok (some 0)
      ∧ ((flash_fw rd wr ss fw).2.drop 2).length = k + 1 := by
  have hprobe : crc [0x75] = 0x8a := by decide
  obtain ⟨v, hv, hvle⟩ : ∃ v, fw_status_check [s, crc [s]] = some v ∧ v ≤ 3 := by
    rcases hs with rfl | rfl | rfl
    · exact ⟨3, by decide, by decide⟩
    · exact ⟨0, by decide, by decide⟩
    · exact ⟨1, by decide, by decide⟩
  have hpre' : ∀ j, j < k → rd (2 + (0 + j)) = [0x75, 0x8a] := by
    intro j hj
    rw [Nat.zero_add, hpre j hj, hprobe]
  have habort := flash_chunks_abort rd wr fw (ss * 1024) hwr k
    (fw.length / (ss * 1024)) 0 none v hk hpre'
    (by rw [Nat.zero_add, hresp]; rfl)
    (by rw [Nat.zero_add, hresp,
          show [s, crc [s]] = [s] ++ [crc [s]] from rfl,
          List.getLastD_concat, List.dropLast_concat])
    (by rw [Nat.zero_add, hresp]; exact hv) hvle
  have hun := flash_fw_unfold rd wr ss fw hss hwr
    (by rw [hr0, hprobe]) (by rw [hr1, hprobe])
  rw [habort] at hun
  rw [hun]
  refine ⟨rfl, ?_⟩
  rw [drop_two_cons, List.length_map, List.length_range]

/-- Witness for `c3_status_amended`: sector size 1, a 2048-byte image,
chunk 0 accepted and chunk 1 answered 0x21 - the transfer returns 0 after
transmitting exactly 2 of the 2 full chunk frames (none after chunk 1). -/
theorem c3_status_amended_witness :
    (flash_fw
        (fun i => if i = 3 then [0x21, 0xde] else [0x75, 0x8a])
        wrOK 1 (List.replicate 2048 3)).1 = Except.ok (some 0)
      ∧ ((flash_fw
          (fun i => if i = 3 then [0x21, 0xde] else [0x75, 0x8a])
          wrOK 1 (List.replicate 2048 3)).2.drop 2).length = 1 + 1 := by
  have h := c3_status_amended
    (fun i => if i = 3 then [0x21, 0xde] else [0x75, 0x8a])
    wrOK 1 (List.replicate 2048 3) 1 0x21
    (by norm_num) (fun _ _ => rfl) (by decide) (by decide)
    (by rw [List.length_replicate]; norm_num)
    (fun j hj => by interval_cases j; decide)
    (by decide) (Or.inr (Or.inl rfl))
  exact h

/-- C6 amended: when the image length is a positive exact multiple of the
chunk size and every full-chunk response is the accepting frame, the
engine's final outcome is `Except.ok` of the status classifier applied to
the last full chunk's response (read number `1 + L / (S*1024)`), with no
stale status from an earlier chunk: the Python local `x` is overwritten on
every accepted chunk, so `return x` yields the last chunk's code 4. -/
theorem c6_exact_multiple_amended (rd : Nat → List Nat) (wr : Nat → List Nat → Nat)
    (ss : Nat) (fw : List Nat)
    (hss : 0 < ss)
    (hwr : ∀ j fr, wr j fr = fr.length)
    (hmul : fw.length % (ss * 1024) = 0)
    (hpos : 0 < fw.length)
    (hrd : ∀ j, j < 2 + fw.length / (ss * 1024) → rd j = [0x75, crc [0x75]]) :
    (flash_fw rd wr ss fw).1
      = Except.ok (fw_status_check (rd (1 + fw.length / (ss * 1024)))) := by
  have hprobe : crc [0x75] = 0x8a := by decide
  have hr0 : rd 0 = [0x75, 0x8a] := by
    rw [hrd 0 (Nat.lt_of_lt_of_le (by norm_num) (Nat.le_add_right 2 _)), hprobe]
  have hr1 : rd 1 = [0x75, 0x8a] := by
    rw [hrd 1 (Nat.lt_of_lt_of_le (by norm_num) (Nat.le_add_right 2 _)), hprobe]
  have hrp : ∀ j, j < fw.length / (ss * 1024) →
      rd (2 + (0 + j)) = [0x75, 0x8a] := by
    intro j hj
    rw [Nat.zero_add, hrd (2 + j) (by omega), hprobe]
  have hdm := Nat.div_add_mod fw.length (ss * 1024)
  have hn : fw.length / (ss * 1024) ≠ 0 := by
    intro h
    rw [h, Nat.mul_zero] at hdm
    omega
  have hloop := flash_chunks_accept rd wr fw (ss * 1024) hwr
    (fw.length / (ss * 1024)) 0 none hrp
  rw [flash_fw_unfold rd wr ss fw hss hwr hr0 hr1, hloop]
  dsimp only
  rw [if_neg (by omega : ¬ 0 < fw.length % (ss * 1024))]
  rw [if_neg hn]
  have hlast : rd (1 + fw.length / (ss * 1024)) = [0x75, 0x8a] := by
    rw [hrd (1 + fw.length / (ss * 1024)) (by omega), hprobe]
  rw [hlast]
  rfl

/-- Witness for `c6_exact_multiple_amended`: a 2048-byte image with an
always-accepting device; the outcome is the classifier of the last full
chunk's response. -/
theorem c6_exact_multiple_amended_witness :
    (flash_fw (fun _ => [0x75, crc [0x75]]) wrOK 1 (List.replicate 2048 3)).1
      = Except.ok (fw_status_check
          ((fun _ => [0x75, crc [0x75]] : Nat → List Nat)
            (1 + (List.replicate 2048 3 : List Nat).length / (1 * 1024)))) := by
  exact c6_exact_multiple_amended (fun _ => [0x75, crc [0x75]]) wrOK 1
    (List.replicate 2048 3) (by norm_num) (fun _ _ => rfl)
    (by rw [List.length_replicate]) (by rw [List.length_replicate]; norm_num)
    (fun _ _ => rfl)

/-- Embedding of the retry loop of `update` (lines 364-372): at attempt
`t`, `_flash_fw` runs against the attempt-t read/write families
(`rds t` / `wrs t`); a return value of 1 reports success, any other return
value (including `None`) continues the loop, and an escaping exception is
caught by the generic handler of `update`, which prints and falls through
to `return False` with no further attempts.  Result: the reported boolean
and the number of `_flash_fw` invocations made. -/
def update_flash_go (rds : Nat → Nat → List Nat)
    (wrs : Nat → Nat → List Nat → Nat) (ss : Nat) (fw : List Nat) :
    Nat → Nat → Bool × Nat
  | 0, t => (false, t)
  | n + 1, t =>
      match (flash_fw (rds t) (wrs t) ss fw).1 with
      | Except.error _ => (false, t + 1)
      | Except.ok (some 1) => (true, t + 1)
      | Except.ok _ => update_flash_go rds wrs ss fw n (t + 1)

/-- Embedding of `update` (lines 349-380) after file and port checks:
`sso` is the `_get_sector_size` result (`None` skips the retry loop and
falls through to `return False`); otherwise the loop runs up to 3
attempts. -/
def update_op (sso : Option Nat) (fw : List Nat)
    (rds : Nat → Nat → List Nat) (wrs : Nat → Nat → List Nat → Nat) :
    Bool × Nat :=
  match sso with
  | none => (false, 0)
  | some ss => update_flash_go rds wrs ss fw 3 0

/-- C10: if on the first attempt the device acknowledges the header
frames, accepts chunks 0..k-1, and answers full chunk k with a
checksum-valid response whose status byte is outside
{0x75, 0x1f, 0x21, 0x20}, then `fw_status_check` returns `None`, the
ordered comparison `x > 3` raises a `TypeError` that escapes `_flash_fw`,
and `update` terminates through its generic exception handler with
failure after exactly that one `_flash_fw` attempt. -/
theorem c10_unknown_status (rds : Nat → Nat → List Nat)
    (wrs : Nat → Nat → List Nat → Nat) (ss : Nat) (fw : List Nat) (k s : Nat)
    (hss : 0 < ss)
    (hwr : ∀ j fr, wrs 0 j fr = fr.length)
    (hr0 : rds 0 0 = [0x75, crc [0x75]])
    (hr1 : rds 0 1 = [0x75, crc [0x75]])
    (hk : k < fw.length / (ss * 1024))
    (hpre : ∀ j, j < k → rds 0 (2 + j) = [0x75, crc [0x75]])
    (hresp : rds 0 (2 + k) = [s, crc [s]])
    (hs1 : s ≠ 0x75) (hs2 : s ≠ 0x1f) (hs3 : s ≠ 0x21) (hs4 : s ≠ 0x20) :
    (flash_fw (rds 0) (wrs 0) ss fw).1 = Except.error PyErr.typeError
      ∧ update_op (some ss) fw rds wrs = (false, 1) := by
  have hprobe : crc [0x75] = 0x8a := by decide
  have hnone : fw_status_check [s, crc [s]] = none := by
    unfold fw_status_check
    rw [if_neg (by simp)]
    rw [show ([s, crc [s]] : List Nat).headD 0 = s from rfl]
    rw [if_neg hs1, if_neg hs2, if_neg hs3, if_neg hs4]
  have hpre' : ∀ j, j < k → rds 0 (2 + (0 + j)) = [0x75, 0x8a] := by
    intro j hj
    rw [Nat.zero_add, hpre j hj, hprobe]
  obtain ⟨x2, hx2⟩ := flash_chunks_type_error (rds 0) (wrs 0) fw (ss * 1024)
    hwr k (fw.length / (ss * 1024)) 0 none hk hpre'
    (by rw [Nat.zero_add, hresp]; rfl)
    (by rw [Nat.zero_add, hresp,
          show [s, crc [s]] = [s] ++ [crc [s]] from rfl,
          List.getLastD_concat, List.dropLast_concat])
    (by rw [Nat.zero_add, hresp]; exact hnone)
  have hun := flash_fw_unfold (rds 0) (wrs 0) ss fw hss hwr
    (by rw [hr0, hprobe]) (by rw [hr1, hprobe])
  rw [hx2] at hun
  have hfirst : (flash_fw (rds 0) (wrs 0) ss fw).1 = Except.error PyErr.typeError := by
    rw [hun]
  refine ⟨hfirst, ?_⟩
  unfold update_op update_flash_go
  rw [hfirst]

/-- Witness for `c10_unknown_status`: sector size 1, a 1024-byte image and
a first-attempt device that answers chunk 0 with the unknown status 0x33:
the engine raises and `update` reports failure after one attempt. -/
theorem c10_unknown_status_witness :
    (flash_fw
        ((fun _ i => if i = 2 then [0x33, 0xcc] else [0x75, 0x8a]) 0)
        ((fun _ => wrOK) 0) 1 (List.replicate 1024 0)).1
      = Except.error PyErr.typeError
      ∧ update_op (some 1) (List.replicate 1024 0)
          (fun _ i => if i = 2 then [0x33, 0xcc] else [0x75, 0x8a])
          (fun _ => wrOK) = (false, 1) := by
  exact c10_unknown_status
    (fun _ i => if i = 2 then [0x33, 0xcc] else [0x75, 0x8a])
    (fun _ => wrOK) 1 (List.replicate 1024 0) 0 0x33
    (by norm_num) (fun _ _ => rfl) (by decide) (by decide)
    (by rw [List.length_replicate]; norm_num)
    (fun j hj => absurd hj (by omega))
    (by decide) (by decide) (by decide) (by decide) (by decide)

/-- Embedding of the retry loop of `app_start` (lines 331-340): at attempt
`t`, `_app_start` runs against the attempt-t write count `ws t` and read
result `rs t`; `res == 1` (that is, `some true`) returns True immediately,
anything else - `some false` or `None` - lets the loop continue; after the
third attempt the function returns False.  Result: the reported boolean
and the number of `_app_start` invocations made. -/
def app_start_go (ws : Nat → Nat) (rs : Nat → List Nat) :
    Nat → Nat → Bool × Nat
  | 0, t => (false, t)
  | n + 1, t =>
      match app_start_stage (ws t) (rs t) with
      | some true => (true, t + 1)
      | _ => app_start_go ws rs n (t + 1)

/-- Embedding of `app_start` (lines 325-346) after the port opened:
`for retries in range(3)` around `_app_start`. -/
def app_start_op (ws : Nat → Nat) (rs : Nat → List Nat) : Bool × Nat :=
  app_start_go ws rs 3 0

/-- One successful attempt stops the loop. -/
theorem app_start_go_succ_pos (ws : Nat → Nat) (rs : Nat → List Nat)
    (n t : Nat) (h : app_start_stage (ws t) (rs t) = some true) :
    app_start_go ws rs (n + 1) t = (true, t + 1) := by
  rw [app_start_go, h]

/-- An unsuccessful attempt passes to the next iteration. -/
theorem app_start_go_succ_neg (ws : Nat → Nat) (rs : Nat → List Nat)
    (n t : Nat) (h : app_start_stage (ws t) (rs t) ≠ some true) :
    app_start_go ws rs (n + 1) t = app_start_go ws rs n (t + 1) := by
  rw [app_start_go]
  rcases hv : app_start_stage (ws t) (rs t) with _ | b
  · rfl
  · cases b
    · rfl
    · exact absurd hv h

/-- C8: the App-Start operation makes at most 3 attempts; after 3
non-successful attempts (`some false` or `None`) it reports failure
without a 4th attempt; and the first successful attempt (status 0x75,
checksum valid) makes it report success immediately, after exactly that
many attempts. -/
theorem c8_app_start_retry (ws : Nat → Nat) (rs : Nat → List Nat) :
    (app_start_op ws rs).2 ≤ 3
      ∧ ((∀ t, t < 3 → app_start_stage (ws t) (rs t) ≠ some true) →
          app_start_op ws rs = (false, 3))
      ∧ (∀ k, k < 3 → app_start_stage (ws k) (rs k) = some true →
          (∀ t, t < k → app_start_stage (ws t) (rs t) ≠ some true) →
          app_start_op ws rs = (true, k + 1)) := by
  by_cases h0 : app_start_stage (ws 0) (rs 0) = some true
  · have hop : app_start_op ws rs = (true, 1) :=
      app_start_go_succ_pos ws rs 2 0 h0
    refine ⟨by rw [hop]; decide, ?_, ?_⟩
    · intro hall
      exact absurd h0 (hall 0 (by norm_num))
    · intro k hk hks hpre
      match k, hk with
      | 0, _ => rw [hop]
      | 1, _ => exact absurd h0 (hpre 0 (by norm_num))
      | 2, _ => exact absurd h0 (hpre 0 (by norm_num))
  · by_cases h1 : app_start_stage (ws 1) (rs 1) = some true
    · have hop : app_start_op ws rs = (true, 2) := by
        unfold app_start_op
        rw [app_start_go_succ_neg ws rs 2 0 h0,
          app_start_go_succ_pos ws rs 1 1 h1]
      refine ⟨by rw [hop]; decide, ?_, ?_⟩
      · intro hall
        exact absurd h1 (hall 1 (by norm_num))
      · intro k hk hks hpre
        match k, hk with
        | 0, _ => exact absurd hks h0
        | 1, _ => rw [hop]
        | 2, _ => exact absurd h1 (hpre 1 (by norm_num))
    · by_cases h2 : app_start_stage (ws 2) (rs 2) = some true
      · have hop : app_start_op ws rs = (true, 3) := by
          unfold app_start_op
          rw [app_start_go_succ_neg ws rs 2 0 h0,
            app_start_go_succ_neg ws rs 1 1 h1,
            app_start_go_succ_pos ws rs 0 2 h2]
        refine ⟨by rw [hop], ?_, ?_⟩
        · intro hall
          exact absurd h2 (hall 2 (by norm_num))
        · intro k hk hks hpre
          match k, hk with
          | 0, _ => exact absurd hks h0
          | 1, _ => exact absurd hks h1
          | 2, _ => rw [hop]
      · have hop : app_start_op ws rs = (false, 3) := by
          unfold app_start_op
          rw [app_start_go_succ_neg ws rs 2 0 h0,
            app_start_go_succ_neg ws rs 1 1 h1,
            app_start_go_succ_neg ws rs 0 2 h2]
          rfl
        refine ⟨by rw [hop], fun _ => hop, ?_⟩
        intro k hk hks hpre
        match k, hk with
        | 0, _ => exact absurd hks h0
        | 1, _ => exact absurd hks h1
        | 2, _ => exact absurd hks h2

/-- Witness for `c8_app_start_retry`: two inconclusive attempts (empty
reads) followed by a valid 0x75 response give success after exactly 3
attempts; three empty reads give failure after exactly 3 attempts. -/
theorem c8_app_start_retry_witness :
    app_start_op (fun _ => 2) (fun t => if t = 2 then [0x75, 0x8a] else [])
        = (true, 3)
      ∧ app_start_op (fun _ => 2) (fun _ => []) = (false, 3) := by
  constructor
  · exact (c8_app_start_retry (fun _ => 2)
      (fun t => if t = 2 then [0x75, 0x8a] else [])).2.2 2 (by norm_num)
      (by decide)
      (fun t ht => by
        match t, ht with
        | 0, _ => decide
        | 1, _ => decide)
  · exact (c8_app_start_retry (fun _ => 2) (fun _ => [])).2.1
      (fun t ht => by decide)

/-- Outcome of running a stage inside an orchestrator try-block: a normal
result, or an exception that reaches the generic handler. -/
inductive StageOut (α : Type) : Type where
  | res : α → StageOut α
  | raise : StageOut α

/-- Channel model of `handshake` (lines 284-301) once the port opened: the
stage runs inside `try ... finally: ser.close()`, so on a True return, a
False return and a caught exception alike, `ser.close()` runs before the
operation returns.  Result: (reported value, channel open at return). -/
def handshake_op_chan (s : StageOut Bool) : Bool × Bool :=
  match s with
  | StageOut.res b => (b, false)
  | StageOut.raise => (false, false)

/-- Channel model of `get_version` (lines 304-322) once the port opened:
same `try ... finally: ser.close()` skeleton around `_get_version`. -/
def get_version_op_chan (s : StageOut (Option (List Nat))) : Bool × Bool :=
  match s with
  | StageOut.res v => (v.isSome, false)
  | StageOut.raise => (false, false)

/-- Channel model of `app_start` (lines 325-346) once the port opened: the
retry loop runs inside `try ... finally: ser.close()`; an exception caught
by the generic handler makes the function fall off the end, returning
`None`. -/
def app_start_op_chan (s : StageOut (Bool × Nat)) : Option Bool × Bool :=
  match s with
  | StageOut.res r => (some r.1, false)
  | StageOut.raise => (none, false)

/-- Channel model of `update` (lines 349-380) once the file and port
opened: the sector-size stage and retry loop run inside
`try ... finally: ser.close()`. -/
def update_op_chan (s : StageOut (Bool × Nat)) : Bool × Bool :=
  match s with
  | StageOut.res r => (r.1, false)
  | StageOut.raise => (false, false)

/-- Channel model of `request_bootloader` (lines 384-429) with the klipper
service already inactive and the port opening successfully.  `ver1` is the
initial `_get_version` probe; `hs` the `_handshake` result after the wake
write.  On the already-in-bootloader path (line 403) the function returns
True without ever calling `ser.close()`; on the wake path the port
reopened at line 418 is never closed before the returns at lines 423 and
426.  Result: (reported value, channel open at return). -/
def request_bootloader_chan (ver1 : Option (List Nat)) (hs : Bool) :
    Bool × Bool :=
  match ver1 with
  | some _ => (true, true)
  | none => if hs then (true, true) else (false, true)

/-- C9 counterexample: `request_bootloader` is a top-level operation that
successfully opens the channel, yet on all three of its main exit paths -
device already in bootloader mode, wake sequence followed by a successful
handshake, wake sequence followed by a failed handshake - it returns with
the channel still open. -/
theorem c9_counterexample :
    (request_bootloader_chan (some (List.replicate 25 0x31)) true).2 = true
      ∧ (request_bootloader_chan none true).2 = true
      ∧ (request_bootloader_chan none false).2 = true :=
  ⟨rfl, rfl, rfl⟩

/-- C9 amended: the four operations built on the
`try ... finally: ser.close()` skeleton - handshake, version query,
app-start and update - close the channel on every exit path (normal
return, stage failure and caught exception alike); `request_bootloader`
does not have this guarantee (see the counterexample). -/
theorem c9_channel_closed_amended (s1 : StageOut Bool)
    (s2 : StageOut (Option (List Nat))) (s3 s4 : StageOut (Bool × Nat)) :
    (handshake_op_chan s1).2 = false
      ∧ (get_version_op_chan s2).2 = false
      ∧ (app_start_op_chan s3).2 = false
      ∧ (update_op_chan s4).2 = false :=
  ⟨by cases s1 <;> rfl, by cases s2 <;> rfl,
   by cases s3 <;> rfl, by cases s4 <;> rfl⟩

end McuUtil
